import Mathlib

/-!
# Security State & Verification Engine — shallow embedding

A shallow embedding in Lean of the security core of the
`secure-comm-simulator` repository, together with theorems settling the
specification's claims about it. The embedded modules are:

* the nonce ledger (`src/lib/attacks/replay.ts`);
* the key & session store (`keyManagement.ts`: `KeyStore`, `SessionManager`);
* the verification engine (`src/lib/verificationService.ts`);
* the relay / audit log (`src/lib/communicationService.ts`);
* the nonce-handling fragments of the verify and relay request handlers.

Conventions: JavaScript `Map`s become association lists whose `set`
operation replaces any previous binding; `Date.now()` becomes an explicit
`now : Int` parameter (one instant per call); results of the external
crypto module (key material, digests) are opaque parameters; a JavaScript
function that may throw returns `Except Unit`; a mutation of module state
is explicit state passing.
-/

namespace SecureComm

/-! ## String-keyed maps

Every stateful module of the source keeps its state in a JavaScript
`Map<string, _>`. The embedding is an association list; `set` replaces
any previous binding, so a map built by `mapSet` never holds two bindings
for one key. -/

/-- `Map.get`: the first binding for the key, if any. -/
def mapGet {α : Type} (m : List (String × α)) (k : String) : Option α :=
  (m.find? (fun p => p.1 == k)).map Prod.snd

/-- `Map.delete`: drop every binding for the key. -/
def mapErase {α : Type} (m : List (String × α)) (k : String) : List (String × α) :=
  m.filter (fun p => p.1 != k)

/-- `Map.set`: replace any previous binding for the key. -/
def mapSet {α : Type} (m : List (String × α)) (k : String) (v : α) : List (String × α) :=
  (k, v) :: mapErase m k

/-! ## Nonce ledger (`src/lib/attacks/replay.ts`)

`usedNonces` is a `Map<string, NonceRecord>`; here a `Ledger` association
list with `Map.set` replace-semantics. -/

/-- `NonceRecord` from `replay.ts`: `{ nonce, usedAt, count }`. -/
structure NonceRecord where
  nonce : String
  usedAt : Int
  count : Nat
deriving DecidableEq, Repr

/-- The `usedNonces` map, as an association list keyed by the nonce. -/
abbrev Ledger := List (String × NonceRecord)

/-- `isReplay(nonce)` from `replay.ts`: the record exists and has
`count > 0`. A pure read: it takes the ledger and returns only a
boolean, never a new ledger. -/
def isReplay (l : Ledger) (n : String) : Bool :=
  match mapGet l n with
  | some record => record.count > 0
  | none => false

/-- `markNonceUsed(nonce)` from `replay.ts`: increment the record's
count and refresh `usedAt`, or create it with `count = 1`. -/
def markNonceUsed (l : Ledger) (n : String) (now : Int) : Ledger :=
  match mapGet l n with
  | some record => mapSet l n { record with count := record.count + 1, usedAt := now }
  | none => mapSet l n { nonce := n, usedAt := now, count := 1 }

/-- The ledger state reached from the empty ledger by a sequence of
`markNonceUsed` calls, each given as a (token, time) pair. `isReplay`
calls are omitted from the sequence because they return a boolean and no
ledger. -/
def runMarks (ops : List (String × Int)) : Ledger :=
  ops.foldl (fun l op => markNonceUsed l op.1 op.2) []

/-! ## Verification engine (`src/lib/verificationService.ts`)

`generateVerificationReport` recomputes the message digest with `sha256`,
queries the nonce ledger, and checks freshness and clock skew against
`Date.now()`. Here the digest function is an opaque parameter
`hash : String → String`, the ledger and `now` are explicit, and the
optional `signatureValid` flag is an `Option Bool`. -/

/-- `AttackDetection` from `types/crypto`. Confidence values in the
source are the literals 1.0, 0.9 and 0, embedded as rationals. -/
structure AttackDetection where
  detected : Bool
  attackType : String
  confidence : ℚ
  evidence : List String
  timestamp : Int
deriving DecidableEq, Repr

/-- The three-level `overallStatus` of a `VerificationReport`. -/
inductive Status where
  | SAFE
  | SUSPICIOUS
  | COMPROMISED
deriving DecidableEq, Repr

/-- The `checks` record of a `VerificationReport`. -/
structure VerificationChecks where
  integrityCheck : Bool
  signatureCheck : Bool
  replayCheck : Bool
  freshnessCheck : Bool
  timeSyncCheck : Bool
deriving DecidableEq, Repr

/-- `VerificationReport` from `verificationService.ts`. -/
structure VerificationReport where
  messageId : String
  timestamp : Int
  checks : VerificationChecks
  detectedAttacks : List AttackDetection
  overallStatus : Status
  riskScore : Nat
deriving DecidableEq, Repr

/-- `MAX_CLOCK_SKEW_MS = 5000` (5 seconds). -/
def MAX_CLOCK_SKEW_MS : Int := 5000

/-- `MESSAGE_MAX_AGE_MS = 3600000` (1 hour). -/
def MESSAGE_MAX_AGE_MS : Int := 3600000

/-- `detectTampering(originalHash, receivedHash)`: detected iff the
hashes differ; confidence 1; evidence embeds the mismatching values. -/
def detectTampering (now : Int) (originalHash receivedHash : String) : AttackDetection :=
  let detected := originalHash != receivedHash
  { detected
    attackType := "tamper"
    confidence := if detected then 1 else 0
    evidence :=
      if detected then
        ["Hash mismatch: " ++ originalHash ++ " != " ++ receivedHash,
         "Ciphertext integrity violated"]
      else []
    timestamp := now }

/-- `detectReplay(nonce)`: detected iff the ledger reports the nonce
replayed; confidence 1. -/
def detectReplay (l : Ledger) (now : Int) (nonce : String) : AttackDetection :=
  let isReplayedNonce := isReplay l nonce
  { detected := isReplayedNonce
    attackType := "replay"
    confidence := if isReplayedNonce then 1 else 0
    evidence :=
      if isReplayedNonce then
        ["Nonce reuse detected: " ++ nonce, "Message has been replayed"]
      else []
    timestamp := now }

/-- `detectMITM(signatureValid, expectedSender)`: detected iff the
signature is invalid; confidence 0.9. -/
def detectMITM (now : Int) (signatureValid : Bool) (expectedSender : String) : AttackDetection :=
  let detected := !signatureValid
  { detected
    attackType := "mitm"
    confidence := if detected then 9 / 10 else 0
    evidence :=
      if detected then
        ["Signature verification failed for sender: " ++ expectedSender,
         "Message may have been intercepted or modified by third party"]
      else []
    timestamp := now }

/-- `generateVerificationReport(messageId, message, messageHash, nonce,
messageTimestamp, signatureValid?)`: runs the five checks, pushes an
`AttackDetection` per triggered tamper/replay/MITM check while adding the
fixed weights 35/30/15/10/20, caps the risk score at 100 and classifies
it. The digest function (`sha256` in the source) is the parameter
`hash`; the ledger and `Date.now()` are explicit. -/
def generateVerificationReport (hash : String → String) (l : Ledger) (now : Int)
    (messageId message messageHash nonce : String) (messageTimestamp : Int)
    (signatureValid : Option Bool) : VerificationReport :=
  let actualHash := hash message
  let integrityValid := actualHash == messageHash
  let isReplayed := isReplay l nonce
  let age := now - messageTimestamp
  let freshnessFresh := decide (age < MESSAGE_MAX_AGE_MS) && decide (0 ≤ age)
  let skew := |now - messageTimestamp|
  let synchronized := decide (skew ≤ MAX_CLOCK_SKEW_MS)
  let step1 : List AttackDetection × Nat :=
    if !integrityValid then ([detectTampering now actualHash messageHash], 35)
    else ([], 0)
  let step2 : List AttackDetection × Nat :=
    if isReplayed then (step1.1 ++ [detectReplay l now nonce], step1.2 + 30)
    else step1
  let risk3 := if !freshnessFresh then step2.2 + 15 else step2.2
  let risk4 := if !synchronized then risk3 + 10 else risk3
  let step5 : List AttackDetection × Nat :=
    if signatureValid == some false then (step2.1 ++ [detectMITM now false "unknown"], risk4 + 20)
    else (step2.1, risk4)
  let riskScore := min step5.2 100
  let overallStatus : Status :=
    if 70 < riskScore then .COMPROMISED
    else if 30 < riskScore then .SUSPICIOUS
    else .SAFE
  { messageId
    timestamp := now
    checks :=
      { integrityCheck := integrityValid
        signatureCheck := signatureValid.getD false
        replayCheck := !isReplayed
        freshnessCheck := freshnessFresh
        timeSyncCheck := synchronized }
    detectedAttacks := step5.1
    overallStatus
    riskScore }

/-- The risk score of a report is the capped sum of the fixed weights of
the failing checks. -/
theorem riskScore_eq (hash : String → String) (l : Ledger) (now : Int)
    (messageId message messageHash nonce : String) (ts : Int) (sv : Option Bool) :
    (generateVerificationReport hash l now messageId message messageHash nonce ts sv).riskScore
      = min ((if hash message ≠ messageHash then 35 else 0)
          + (if isReplay l nonce = true then 30 else 0)
          + (if ¬(now - ts < MESSAGE_MAX_AGE_MS ∧ 0 ≤ now - ts) then 15 else 0)
          + (if ¬(|now - ts| ≤ MAX_CLOCK_SKEW_MS) then 10 else 0)
          + (if sv = some false then 20 else 0)) 100 := by
  unfold generateVerificationReport
  by_cases h1 : hash message = messageHash <;>
    by_cases h2 : isReplay l nonce = true <;>
    by_cases h3 : now - ts < MESSAGE_MAX_AGE_MS <;>
    by_cases h3' : 0 ≤ now - ts <;>
    by_cases h4 : |now - ts| ≤ MAX_CLOCK_SKEW_MS <;>
    by_cases h5 : sv = some false <;>
    simp [h1, h2, h3, h3', h4, h5]

/-- Weight monotonicity: a check that fails in the first input and hence
in the second contributes no more weight in the first than in the
second. -/
theorem ite_weight_mono {p q : Prop} [Decidable p] [Decidable q] (w : Nat) (h : p → q) :
    (if p then w else 0) ≤ if q then w else 0 := by
  by_cases hp : p
  · simp [hp, h hp]
  · simp [hp]

/-! ## Key & session store (`keyManagement.ts`)

`KeyStore` keeps a `Map<string, StoredKeyPair>`; `SessionManager` keeps a
`Map<string, SessionContext>` and owns no key material. Key material
produced by the external crypto module (`CryptoKey` handles) is embedded
as opaque `Nat` handles passed in by the caller; a generation that throws
is the caller passing `none`. `Date` values are `Int` milliseconds. -/

/-- The `type` tag of a `StoredKeyPair`. -/
inductive KeyType where
  | RSA_ENCRYPT
  | RSA_SIGN
  | AES
  | ECDH
deriving DecidableEq, Repr

/-- `StoredKeyPair` from `keyManagement.ts`. -/
structure StoredKeyPair where
  id : String
  type : KeyType
  publicKey : Option Nat := none
  privateKey : Option Nat := none
  symmetricKey : Option Nat := none
  createdAt : Int
  expiresAt : Int
deriving DecidableEq, Repr

/-- The `KeyStore.keys` map. -/
abbrev Keys := List (String × StoredKeyPair)

/-- `DEFAULT_KEY_LIFESPAN_MS = 3600000` (1 hour). -/
def DEFAULT_KEY_LIFESPAN_MS : Int := 3600000

/-- `generateAndStoreRSAEncryptionKeys(keyId)`: store the fresh pair
under the given id with a default lifespan, returning the id and the
public handle. -/
def generateAndStoreRSAEncryptionKeys (ks : Keys) (keyId : String) (now : Int)
    (publicKey privateKey : Nat) : (String × Nat) × Keys :=
  ((keyId, publicKey),
   mapSet ks keyId
     { id := keyId, type := KeyType.RSA_ENCRYPT, publicKey := some publicKey,
       privateKey := some privateKey, createdAt := now,
       expiresAt := now + DEFAULT_KEY_LIFESPAN_MS })

/-- `generateAndStoreRSASignatureKeys(keyId)`. -/
def generateAndStoreRSASignatureKeys (ks : Keys) (keyId : String) (now : Int)
    (publicKey privateKey : Nat) : (String × Nat) × Keys :=
  ((keyId, publicKey),
   mapSet ks keyId
     { id := keyId, type := KeyType.RSA_SIGN, publicKey := some publicKey,
       privateKey := some privateKey, createdAt := now,
       expiresAt := now + DEFAULT_KEY_LIFESPAN_MS })

/-- `generateAndStoreAESSessionKey(keyId)`. -/
def generateAndStoreAESSessionKey (ks : Keys) (keyId : String) (now : Int)
    (key : Nat) : (String × Nat) × Keys :=
  ((keyId, key),
   mapSet ks keyId
     { id := keyId, type := KeyType.AES, symmetricKey := some key,
       createdAt := now, expiresAt := now + DEFAULT_KEY_LIFESPAN_MS })

/-- `generateAndStoreECDHKeyPair(keyId)`. -/
def generateAndStoreECDHKeyPair (ks : Keys) (keyId : String) (now : Int)
    (publicKey privateKey : Nat) : (String × Nat) × Keys :=
  ((keyId, publicKey),
   mapSet ks keyId
     { id := keyId, type := KeyType.ECDH, publicKey := some publicKey,
       privateKey := some privateKey, createdAt := now,
       expiresAt := now + DEFAULT_KEY_LIFESPAN_MS })

/-- `KeyStore.getKeyPair(keyId)` — the spec's `getActive`: look the
record up; if it is present but `expiresAt < now` evict it (lazy expiry)
and report absence; otherwise return it unchanged. Returns the looked-up
record and the possibly-updated store. -/
def getKeyPair (ks : Keys) (keyId : String) (now : Int) : Option StoredKeyPair × Keys :=
  match mapGet ks keyId with
  | some stored =>
    if stored.expiresAt < now then (none, mapErase ks keyId) else (some stored, ks)
  | none => (none, ks)

/-- `KeyStore.revokeKey(keyId)`: unconditional delete; returns whether a
record existed. -/
def revokeKey (ks : Keys) (keyId : String) : Bool × Keys :=
  ((mapGet ks keyId).isSome, mapErase ks keyId)

/-- `KeyStore.getActiveKeyIds()`: ids of records with
`expiresAt > now`. -/
def getActiveKeyIds (ks : Keys) (now : Int) : List String :=
  (ks.filter (fun p => now < p.2.expiresAt)).map Prod.fst

/-- `SessionContext` from `keyManagement.ts`. The four key ids are
optional because the source assigns them only after generation. -/
structure SessionContext where
  sessionId : String
  rsaEncryptionKeyId : Option String := none
  rsaSignatureKeyId : Option String := none
  aesSessionKeyId : Option String := none
  ecdhKeyId : Option String := none
  createdAt : Int
  expiresAt : Int
deriving DecidableEq, Repr

/-- The `SessionManager.sessions` map. -/
abbrev Sessions := List (String × SessionContext)

/-- The combined state of the `keyStore` and `sessionManager`
singletons. -/
structure SysState where
  keys : Keys
  sessions : Sessions
deriving DecidableEq, Repr

/-- `SESSION_LIFESPAN_MS = 1800000` (30 minutes). -/
def SESSION_LIFESPAN_MS : Int := 1800000

/-- `SessionManager.createSession(sessionId)`: generate the four
session-scoped keys in order (RSA encryption, RSA signature, AES, ECDH),
each named by suffixing the session id, then store the session record.
Each generation's key material is an `Option` argument: `none` embeds a
generation that throws. A throw propagates out of `createSession` at the
point it occurs, leaving the mutations already made to the key store in
place and the session map untouched. -/
def createSession (st : SysState) (sessionId : String) (now : Int)
    (genEnc genSig : Option (Nat × Nat)) (genAes : Option Nat)
    (genEcdh : Option (Nat × Nat)) : Except Unit SessionContext × SysState :=
  match genEnc with
  | none => (Except.error (), st)
  | some (encPub, encPriv) =>
    let ks1 := (generateAndStoreRSAEncryptionKeys st.keys (sessionId ++ "-rsa-enc") now
      encPub encPriv).2
    match genSig with
    | none => (Except.error (), { st with keys := ks1 })
    | some (sigPub, sigPriv) =>
      let ks2 := (generateAndStoreRSASignatureKeys ks1 (sessionId ++ "-rsa-sig") now
        sigPub sigPriv).2
      match genAes with
      | none => (Except.error (), { st with keys := ks2 })
      | some aesKey =>
        let ks3 := (generateAndStoreAESSessionKey ks2 (sessionId ++ "-aes") now aesKey).2
        match genEcdh with
        | none => (Except.error (), { st with keys := ks3 })
        | some (dhPub, dhPriv) =>
          let ks4 := (generateAndStoreECDHKeyPair ks3 (sessionId ++ "-ecdh") now
            dhPub dhPriv).2
          let session : SessionContext :=
            { sessionId
              rsaEncryptionKeyId := some (sessionId ++ "-rsa-enc")
              rsaSignatureKeyId := some (sessionId ++ "-rsa-sig")
              aesSessionKeyId := some (sessionId ++ "-aes")
              ecdhKeyId := some (sessionId ++ "-ecdh")
              createdAt := now
              expiresAt := now + SESSION_LIFESPAN_MS }
          (Except.ok session, { keys := ks4, sessions := mapSet st.sessions sessionId session })

/-- One `if (keyId) keyStore.revokeKey(keyId)` statement of
`terminateSession`. -/
def revokeIfPresent (ks : Keys) (keyId : Option String) : Keys :=
  match keyId with
  | some kid => (revokeKey ks kid).2
  | none => ks

/-- `SessionManager.terminateSession(sessionId)`: on a missing session
return `false`; otherwise revoke each key id the session references,
delete the session, and return whether the delete found it. -/
def terminateSession (st : SysState) (sessionId : String) : Bool × SysState :=
  match mapGet st.sessions sessionId with
  | none => (false, st)
  | some session =>
    let k1 := revokeIfPresent st.keys session.rsaEncryptionKeyId
    let k2 := revokeIfPresent k1 session.rsaSignatureKeyId
    let k3 := revokeIfPresent k2 session.aesSessionKeyId
    let k4 := revokeIfPresent k3 session.ecdhKeyId
    ((mapGet st.sessions sessionId).isSome,
     { keys := k4, sessions := mapErase st.sessions sessionId })

/-! ## Relay / audit log (`src/lib/communicationService.ts`) -/

/-- `MessageLog` from `communicationService.ts`. -/
structure MessageLog where
  id : String
  timestamp : Int
  sender : String
  receiver : String
  encrypted : Bool
  attacksDetected : List String
  encryptedDataHash : String
  decrypted : Bool
deriving DecidableEq, Repr

/-- `MAX_LOG_SIZE = 1000`. -/
def MAX_LOG_SIZE : Nat := 1000

/-- `CommunicationService.logMessage(...)`: append the entry, then if
the log exceeds `MAX_LOG_SIZE` shift the oldest entry off the front. -/
def logMessage (log : List MessageLog) (messageId sender receiver : String) (now : Int)
    (encryptedDataHash : String) (attacksDetected : List String) : List MessageLog :=
  let entry : MessageLog :=
    { id := messageId, timestamp := now, sender := sender, receiver := receiver,
      encrypted := true, attacksDetected := attacksDetected,
      encryptedDataHash := encryptedDataHash, decrypted := false }
  let log' := log ++ [entry]
  if MAX_LOG_SIZE < log'.length then log'.tail else log'

/-- `CommunicationService.logAttackAttempt(messageId, attackType)`. -/
def logAttackAttempt (log : List MessageLog) (messageId attackKind : String)
    (now : Int) : List MessageLog :=
  logMessage log messageId "unknown" "unknown" now "N/A" [attackKind]

/-- One `logMessage` call's arguments, for reasoning about call
sequences. -/
structure LogInsert where
  messageId : String
  sender : String
  receiver : String
  now : Int
  encryptedDataHash : String
  attacksDetected : List String
deriving DecidableEq, Repr

/-- The `MessageLog` entry a given `logMessage` call appends. -/
def mkLogEntry (i : LogInsert) : MessageLog :=
  { id := i.messageId, timestamp := i.now, sender := i.sender, receiver := i.receiver,
    encrypted := true, attacksDetected := i.attacksDetected,
    encryptedDataHash := i.encryptedDataHash, decrypted := false }

/-- The log produced from the empty log by a sequence of `logMessage`
calls. -/
def runLogMessages (inserts : List LogInsert) : List MessageLog :=
  inserts.foldl
    (fun log i => logMessage log i.messageId i.sender i.receiver i.now
      i.encryptedDataHash i.attacksDetected) []

/-! ## Request handlers (verify route, relay route)

The transport adapters that consume the nonce ledger: the verify route
(`POST` of the verify endpoint) and the relay route (`POST` of the relay
endpoint). Request parsing, HTTP status codes and the message buffer are
out of scope; each handler is embedded as the function from its parsed
request body and the touched module states to its response data and the
updated states. -/

/-- `VerificationResult` from `types/crypto`, as produced by the verify
route. -/
structure VerificationResult where
  integrity : Bool
  authentication : Bool
  replaySafe : Bool
  signatureValid : Option Bool
  freshnessValid : Option Bool
  detectedAttacks : List String
  message : String
deriving DecidableEq, Repr

/-- The verify route `POST` handler: check for a replay (only when
`replayEnabled`), mark the nonce used only when no replay was detected,
then assemble the detected-attack list in the order tamper, replay,
mitm, stale. -/
def verifyRoutePOST (l : Ledger) (now : Int) (nonce : String)
    (integrity authentication replayEnabled : Bool)
    (signatureValid freshnessValid : Option Bool) : VerificationResult × Ledger :=
  let isReplayAttack := replayEnabled && isReplay l nonce
  let replaySafe := !isReplayAttack
  let l' := if !isReplayAttack then markNonceUsed l nonce now else l
  let a1 : List String := if !integrity then ["tamper"] else []
  let a2 := if isReplayAttack then a1 ++ ["replay"] else a1
  let a3 := if signatureValid == some false && replayEnabled then a2 ++ ["mitm"] else a2
  let a4 := if freshnessValid == some false then a3 ++ ["stale"] else a3
  ({ integrity, authentication, replaySafe, signatureValid, freshnessValid,
     detectedAttacks := a4,
     message :=
       if 0 < a4.length then "Attacks detected: " ++ String.intercalate ", " a4
       else "Message verified successfully" }, l')

/-- `EncryptedMessage` payload from `types/crypto` (relay request
body). -/
structure EncryptedPayload where
  encryptedData : String
  iv : String
  nonce : String
  timestamp : Int
  encryptionMethod : String
  mac : Option String := none
  signature : Option String := none
deriving DecidableEq, Repr

/-- `AttackOptions` from `types/crypto`. -/
structure AttackOptions where
  tamper : Bool
  replay : Bool
  mitm : Bool
deriving DecidableEq, Repr

/-- The relay route `POST` handler, over the nonce ledger and the audit
log. When the replay attack option is on and the nonce is a replay, it
logs the attempt and returns failure without marking the nonce;
otherwise it simulates the requested tamper/MITM mutations, marks the
nonce used, and logs the message. The ciphertext mutation `tamperFn`
(bit-flip on the decoded buffer) and the hex digest of the payload
(`hexDigest`, truncated to 16 characters) are opaque. The message
buffer write is out of scope here. Returns (success, ledger, log,
forwarded payload). -/
def relayRoutePOST (l : Ledger) (log : List MessageLog) (now : Int)
    (payload : EncryptedPayload) (attackOptions : AttackOptions)
    (tamperFn hexDigest : String → String) :
    Bool × Ledger × List MessageLog × Option EncryptedPayload :=
  let messageId := "relay-" ++ toString now
  if attackOptions.replay && isReplay l payload.nonce then
    (false, l, logAttackAttempt log messageId "replay" now, none)
  else
    let doTamper := attackOptions.tamper && payload.encryptedData != ""
    let attacks1 : List String := if doTamper then ["tamper"] else []
    let data1 :=
      if doTamper then tamperFn payload.encryptedData else payload.encryptedData
    let log1 := if doTamper then logAttackAttempt log messageId "tamper" now else log
    let attacks2 := if attackOptions.mitm then attacks1 ++ ["mitm"] else attacks1
    let log2 := if attackOptions.mitm then logAttackAttempt log1 messageId "mitm" now else log1
    let l' := markNonceUsed l payload.nonce now
    let modifiedPayload := { payload with encryptedData := data1 }
    let log3 := logMessage log2 messageId "sender@example.com" "receiver@example.com" now
      ((hexDigest data1).take 16) attacks2
    (true, l', log3, some modifiedPayload)

/-! ## Concrete fixtures

Closed values used to instantiate theorems at explicit inputs. -/

/-- An AES key record expiring at time 5. -/
def sampleAesRecord : StoredKeyPair :=
  { id := "k", type := KeyType.AES, symmetricKey := some 7, createdAt := 0, expiresAt := 5 }

/-- An AES key record expiring at time 9. -/
def sampleAesRecord2 : StoredKeyPair :=
  { id := "k", type := KeyType.AES, symmetricKey := some 8, createdAt := 1, expiresAt := 9 }

/-- A session holding four key ids. -/
def sampleSession : SessionContext :=
  { sessionId := "s", rsaEncryptionKeyId := some "s-enc", rsaSignatureKeyId := some "s-sig",
    aesSessionKeyId := some "s-aes", ecdhKeyId := some "s-ecdh",
    createdAt := 0, expiresAt := 1800000 }

/-- A store state holding only `sampleSession`. -/
def sampleSessionState : SysState :=
  { keys := [], sessions := [("s", sampleSession)] }

/-- A store state with empty key store and session map. -/
def emptySysState : SysState :=
  { keys := [], sessions := [] }

/-- A relay payload with nonce "n". -/
def samplePayload : EncryptedPayload :=
  { encryptedData := "c", iv := "i", nonce := "n", timestamp := 0, encryptionMethod := "aes" }

/-- Attack options with only the replay toggle on. -/
def replayOnlyOptions : AttackOptions :=
  { tamper := false, replay := true, mitm := false }

/-- A log insert with message id "a". -/
def logInsertA : LogInsert :=
  { messageId := "a", sender := "s", receiver := "r", now := 0,
    encryptedDataHash := "h", attacksDetected := [] }

/-- A log insert with message id "b". -/
def logInsertB : LogInsert :=
  { messageId := "b", sender := "s", receiver := "r", now := 0,
    encryptedDataHash := "h", attacksDetected := [] }

/-! ## Theorems -/


theorem mapGet_mapSet_self {α : Type} (l : List (String × α)) (n : String) (r : α) :
    mapGet (mapSet l n r) n = some r := by
  simp [mapGet, mapSet, mapErase, List.find?_cons]

theorem mapGet_mapErase_self {α : Type} (m : List (String × α)) (k : String) :
    mapGet (mapErase m k) k = none := by
  induction m with
  | nil => rfl
  | cons p rest ih =>
    simp only [mapErase, List.filter_cons] at ih ⊢
    by_cases hp : p.1 = k
    · simp only [(by simp [hp] : (p.1 != k) = false), Bool.false_eq_true, if_false]
      exact ih
    · have h1 : (p.1 != k) = true := by simpa [bne_iff_ne] using hp
      have h2 : (p.1 == k) = false := by simp [hp]
      simp only [h1, if_true, mapGet, List.find?_cons, h2, cond_false]
      exact ih

theorem mapGet_mapErase_ne {α : Type} (m : List (String × α)) (k q : String)
    (h : q ≠ k) : mapGet (mapErase m k) q = mapGet m q := by
  induction m with
  | nil => rfl
  | cons p rest ih =>
    simp only [mapErase, List.filter_cons] at ih ⊢
    by_cases hp : p.1 = k
    · have h2 : (p.1 == q) = false := by
        rw [hp]
        exact beq_eq_false_iff_ne.mpr fun e => h e.symm
      simp only [(by simp [hp] : (p.1 != k) = false), Bool.false_eq_true, if_false, ih]
      simp [mapGet, List.find?_cons, h2]
    · have h1 : (p.1 != k) = true := by simpa [bne_iff_ne] using hp
      cases h2 : (p.1 == q) with
      | true => simp [h1, mapGet, List.find?_cons, h2]
      | false => simp only [h1, if_true, mapGet, List.find?_cons, h2, cond_false]; exact ih

theorem mapGet_mapErase_none {α : Type} (m : List (String × α)) (k q : String)
    (h : mapGet m q = none) : mapGet (mapErase m k) q = none := by
  by_cases hk : q = k
  · subst hk; exact mapGet_mapErase_self m q
  · rw [mapGet_mapErase_ne m k q hk]; exact h

theorem mapGet_eq_of_mem_nodup {α : Type} {m : List (String × α)}
    (hn : (m.map Prod.fst).Nodup) {k : String} {v : α} (hv : (k, v) ∈ m) :
    mapGet m k = some v := by
  induction m with
  | nil => cases hv
  | cons p rest ih =>
    rcases List.mem_cons.mp hv with h | h
    · subst h
      simp [mapGet, List.find?_cons]
    · have hk : k ∈ rest.map Prod.fst := List.mem_map.mpr ⟨(k, v), h, rfl⟩
      have hne : p.1 ≠ k := by
        intro e
        exact (List.nodup_cons.mp hn).1 (e ▸ hk)
      have h2 : (p.1 == k) = false := by simp [hne]
      simp only [mapGet, List.find?_cons, h2, cond_false]
      exact ih (List.nodup_cons.mp hn).2 h

theorem string_append_left_cancel {s a b : String} (h : s ++ a = s ++ b) : a = b := by
  have hd := congrArg String.data h
  simp only [String.data_append] at hd
  exact String.ext (List.append_cancel_left hd)

theorem mapGet_mapSet_ne {α : Type} (l : List (String × α)) (n m : String) (r : α)
    (h : m ≠ n) : mapGet (mapSet l n r) m = mapGet l m := by
  simp only [mapGet, mapSet, mapErase]
  rw [List.find?_cons_of_neg _ (by simp [h.symm])]
  congr 1
  induction l with
  | nil => rfl
  | cons p rest ih =>
    by_cases hp : p.1 = n
    · have hfilter : (p.1 != n) = false := by simp [hp]
      have hne : (p.1 == m) = false := by simp [hp, h.symm]
      simp only [List.filter_cons, hfilter, List.find?_cons, hne, ih,
        Bool.false_eq_true, if_false, cond_false]
    · have hkeep : (p.1 != n) = true := by simpa [bne_iff_ne] using hp
      by_cases hm : p.1 = m
      · have heq : (p.1 == m) = true := by simp [hm]
        simp only [List.filter_cons, hkeep, List.find?_cons, heq, if_true, cond_true]
      · have hne : (p.1 == m) = false := by simp [hm]
        simp only [List.filter_cons, hkeep, List.find?_cons, hne, ih,
          Bool.false_eq_true, if_true, if_false, cond_false, cond_true]

theorem isReplay_markNonceUsed_self (l : Ledger) (n : String) (t : Int) :
    isReplay (markNonceUsed l n t) n = true := by
  unfold markNonceUsed
  cases h : mapGet l n with
  | some r => simp [isReplay, mapGet_mapSet_self]
  | none => simp [isReplay, mapGet_mapSet_self]

theorem isReplay_markNonceUsed_ne (l : Ledger) (n m : String) (t : Int)
    (h : m ≠ n) : isReplay (markNonceUsed l n t) m = isReplay l m := by
  unfold markNonceUsed
  cases hg : mapGet l n with
  | some r => simp [isReplay, mapGet_mapSet_ne _ _ _ _ h]
  | none => simp [isReplay, mapGet_mapSet_ne _ _ _ _ h]

/-- On the ledger reached by any sequence of `markNonceUsed` calls,
`isReplay t` answers exactly "was `t` marked at least once". -/
theorem isReplay_runMarks (ops : List (String × Int)) (t : String) :
    isReplay (runMarks ops) t = (ops.map Prod.fst).contains t := by
  suffices h : ∀ (l : Ledger), isReplay (ops.foldl (fun l op => markNonceUsed l op.1 op.2) l) t
      = (isReplay l t || (ops.map Prod.fst).contains t) by
    have := h []
    simpa [runMarks, isReplay, mapGet] using this
  induction ops with
  | nil => intro l; simp
  | cons op rest ih =>
    intro l
    simp only [List.foldl_cons, List.map_cons, ih]
    by_cases hmn : t = op.1
    · subst hmn
      simp [isReplay_markNonceUsed_self, List.contains_cons]
    · rw [isReplay_markNonceUsed_ne _ _ _ _ hmn]
      simp [List.contains_cons, hmn, (by simpa [bne_iff_ne] using hmn : (t == op.1) = false)]

/-- C5: for every token `t` and every sequence of ledger operations,
`isReplay t` is `false` as long as `markNonceUsed t` has never been
called and `true` for every call after the first `markNonceUsed t`; the
embedding of `isReplay` is a pure read (it returns only a boolean, so it
cannot modify the ledger). -/
theorem isReplay_iff_marked (ops : List (String × Int)) (t : String) :
    isReplay (runMarks ops) t = (ops.map Prod.fst).contains t :=
  isReplay_runMarks ops t


/-- C1: when the recomputed digest differs from the claimed digest, the
ledger reports the nonce replayed, `signatureValid` is supplied as
`false`, and the timestamp is within the freshness and skew bounds, the
report has `riskScore = 85`, status `COMPROMISED`, and exactly three
attack detections in the fixed order [tamper, replay, mitm]. -/
theorem report_tamper_replay_mitm (hash : String → String) (l : Ledger) (now : Int)
    (messageId message messageHash nonce : String) (ts : Int)
    (hDigest : hash message ≠ messageHash)
    (hReplay : isReplay l nonce = true)
    (hAgeLo : 0 ≤ now - ts) (hAgeHi : now - ts < MESSAGE_MAX_AGE_MS)
    (hSkew : |now - ts| ≤ MAX_CLOCK_SKEW_MS) :
    (generateVerificationReport hash l now messageId message messageHash nonce ts
        (some false)).riskScore = 85
      ∧ (generateVerificationReport hash l now messageId message messageHash nonce ts
          (some false)).overallStatus = Status.COMPROMISED
      ∧ (generateVerificationReport hash l now messageId message messageHash nonce ts
          (some false)).detectedAttacks.map AttackDetection.attackType
          = ["tamper", "replay", "mitm"] := by
  unfold generateVerificationReport
  simp [hDigest, hReplay, hAgeLo, hAgeHi, hSkew, detectTampering, detectReplay, detectMITM]

/-- C1 witness: a concrete run with mismatching digest, replayed nonce
and failed signature inside the freshness and skew bounds. -/
theorem report_tamper_replay_mitm_witness :
    (generateVerificationReport (fun _ => "h1") (markNonceUsed [] "n" 0) 0
        "m" "msg" "h2" "n" 0 (some false)).riskScore = 85
      ∧ (generateVerificationReport (fun _ => "h1") (markNonceUsed [] "n" 0) 0
          "m" "msg" "h2" "n" 0 (some false)).overallStatus = Status.COMPROMISED
      ∧ (generateVerificationReport (fun _ => "h1") (markNonceUsed [] "n" 0) 0
          "m" "msg" "h2" "n" 0 (some false)).detectedAttacks.map AttackDetection.attackType
          = ["tamper", "replay", "mitm"] :=
  report_tamper_replay_mitm (fun _ => "h1") (markNonceUsed [] "n" 0) 0 "m" "msg" "h2" "n" 0
    (by decide) (by decide) (by decide) (by decide) (by decide)

/-- C2: when the recomputed digest equals the claimed digest, the nonce
has never been marked used, the timestamp is within the freshness and
skew bounds, and `signatureValid` is absent or `true`, the report has
`riskScore = 0`, status `SAFE` and no detected attacks. -/
theorem report_all_pass_safe (hash : String → String) (ops : List (String × Int)) (now : Int)
    (messageId message messageHash nonce : String) (ts : Int) (sv : Option Bool)
    (hDigest : hash message = messageHash)
    (hNonce : ¬ nonce ∈ ops.map Prod.fst)
    (hAgeLo : 0 ≤ now - ts) (hAgeHi : now - ts < MESSAGE_MAX_AGE_MS)
    (hSkew : |now - ts| ≤ MAX_CLOCK_SKEW_MS)
    (hSig : sv = none ∨ sv = some true) :
    (generateVerificationReport hash (runMarks ops) now messageId message messageHash nonce ts
        sv).riskScore = 0
      ∧ (generateVerificationReport hash (runMarks ops) now messageId message messageHash nonce ts
          sv).overallStatus = Status.SAFE
      ∧ (generateVerificationReport hash (runMarks ops) now messageId message messageHash nonce ts
          sv).detectedAttacks = [] := by
  have hReplay : isReplay (runMarks ops) nonce = false := by
    rw [isReplay_runMarks]
    simpa using hNonce
  have hSig' : (sv == some false) = false := by
    rcases hSig with h | h <;> simp [h]
  unfold generateVerificationReport
  simp [hDigest, hReplay, hAgeLo, hAgeHi, hSkew, hSig']

/-- C2 witness: a concrete clean run (matching digest, fresh nonce,
timestamp at `now`, no signature signal). -/
theorem report_all_pass_safe_witness :
    (generateVerificationReport (fun _ => "h") [] 0 "m" "msg" "h" "n" 0 none).riskScore = 0
      ∧ (generateVerificationReport (fun _ => "h") [] 0 "m" "msg" "h" "n" 0
          none).overallStatus = Status.SAFE
      ∧ (generateVerificationReport (fun _ => "h") [] 0 "m" "msg" "h" "n" 0
          none).detectedAttacks = [] :=
  report_all_pass_safe (fun _ => "h") [] 0 "m" "msg" "h" "n" 0 none
    (by decide) (by decide) (by decide) (by decide) (by decide) (Or.inl rfl)

/-- C8: the risk score always lies in [0, 100] (it is a `Nat`, so the
lower bound is by type), and it is monotone in the set of failing
checks: if every check failing for the first input also fails for the
second, the first report's score is at most the second's. -/
theorem riskScore_bounded_monotone
    (hash₁ hash₂ : String → String) (l₁ l₂ : Ledger) (now₁ now₂ : Int)
    (mid₁ mid₂ msg₁ msg₂ mh₁ mh₂ n₁ n₂ : String) (ts₁ ts₂ : Int) (sv₁ sv₂ : Option Bool)
    (hI : hash₁ msg₁ ≠ mh₁ → hash₂ msg₂ ≠ mh₂)
    (hR : isReplay l₁ n₁ = true → isReplay l₂ n₂ = true)
    (hF : ¬(now₁ - ts₁ < MESSAGE_MAX_AGE_MS ∧ 0 ≤ now₁ - ts₁)
      → ¬(now₂ - ts₂ < MESSAGE_MAX_AGE_MS ∧ 0 ≤ now₂ - ts₂))
    (hS : ¬(|now₁ - ts₁| ≤ MAX_CLOCK_SKEW_MS) → ¬(|now₂ - ts₂| ≤ MAX_CLOCK_SKEW_MS))
    (hSig : sv₁ = some false → sv₂ = some false) :
    (generateVerificationReport hash₁ l₁ now₁ mid₁ msg₁ mh₁ n₁ ts₁ sv₁).riskScore
        ≤ (generateVerificationReport hash₂ l₂ now₂ mid₂ msg₂ mh₂ n₂ ts₂ sv₂).riskScore
      ∧ (generateVerificationReport hash₁ l₁ now₁ mid₁ msg₁ mh₁ n₁ ts₁ sv₁).riskScore ≤ 100
      ∧ (generateVerificationReport hash₂ l₂ now₂ mid₂ msg₂ mh₂ n₂ ts₂ sv₂).riskScore ≤ 100 := by
  rw [riskScore_eq, riskScore_eq]
  refine ⟨?_, min_le_right _ _, min_le_right _ _⟩
  refine min_le_min ?_ le_rfl
  have t1 := ite_weight_mono (p := hash₁ msg₁ ≠ mh₁) (q := hash₂ msg₂ ≠ mh₂) 35 hI
  have t2 := ite_weight_mono (p := isReplay l₁ n₁ = true) (q := isReplay l₂ n₂ = true) 30 hR
  have t3 := ite_weight_mono 15 hF
  have t4 := ite_weight_mono 10 hS
  have t5 := ite_weight_mono (p := sv₁ = some false) (q := sv₂ = some false) 20 hSig
  omega

/-- C8 witness: a clean run against a run failing all five checks. -/
theorem riskScore_bounded_monotone_witness :
    (generateVerificationReport (fun _ => "h") [] 0 "m" "msg" "h" "n" 0 none).riskScore
        ≤ (generateVerificationReport (fun _ => "h1") (markNonceUsed [] "n" 0) 4000000
            "m" "msg" "h2" "n" 0 (some false)).riskScore
      ∧ (generateVerificationReport (fun _ => "h") [] 0 "m" "msg" "h" "n" 0 none).riskScore ≤ 100
      ∧ (generateVerificationReport (fun _ => "h1") (markNonceUsed [] "n" 0) 4000000
          "m" "msg" "h2" "n" 0 (some false)).riskScore ≤ 100 :=
  riskScore_bounded_monotone (fun _ => "h") (fun _ => "h1") [] (markNonceUsed [] "n" 0)
    0 4000000 "m" "m" "msg" "msg" "h" "h2" "n" "n" 0 0 none (some false)
    (fun _ => by decide) (fun _ => by decide) (fun _ => by decide)
    (fun _ => by decide) (fun h => by cases h)

/-- C10: when `signatureValid` is absent the report's
`checks.signatureCheck` is `false` — the very value produced by an
actual signature failure, so the `checks` record of an absent-signature
report equals that of a failed-signature report on the same inputs —
while the risk score and the detected attacks are those of a
valid-signature report (no weight added, no MITM detection appended). -/
theorem signature_absent_indistinguishable (hash : String → String) (l : Ledger) (now : Int)
    (messageId message messageHash nonce : String) (ts : Int) :
    (generateVerificationReport hash l now messageId message messageHash nonce ts
        none).checks.signatureCheck = false
      ∧ (generateVerificationReport hash l now messageId message messageHash nonce ts
          none).checks
        = (generateVerificationReport hash l now messageId message messageHash nonce ts
            (some false)).checks
      ∧ (generateVerificationReport hash l now messageId message messageHash nonce ts
          none).riskScore
        = (generateVerificationReport hash l now messageId message messageHash nonce ts
            (some true)).riskScore
      ∧ (generateVerificationReport hash l now messageId message messageHash nonce ts
          none).detectedAttacks
        = (generateVerificationReport hash l now messageId message messageHash nonce ts
            (some true)).detectedAttacks :=
  ⟨rfl, rfl, rfl, rfl⟩

/-- C3 counterexample: at the boundary instant `now = expiresAt`,
`getKeyPair` still returns the stored record although `now < expiresAt`
fails — the eviction test is `expiresAt < now`, not `now < expiresAt` as
an upper bound on returns. -/
theorem getKeyPair_boundary_counterexample :
    (getKeyPair [("k", sampleAesRecord)] "k" 5).1 = some sampleAesRecord
      ∧ ¬((5 : Int) < sampleAesRecord.expiresAt) := by
  constructor
  · rfl
  · decide

/-- C3 amended: `getKeyPair` returns the stored record only if
`now ≤ expiresAt` (the source evicts on `expiresAt < now`, so the
boundary instant still returns the record); for a stored record whose
`expiresAt` has passed, the lookup returns absent, evicts the record,
and its id is not listed by `getActiveKeyIds`; a lookup before
`expiresAt` after storing returns the record identical to the one
stored. The store is assumed duplicate-free, as every JavaScript `Map`
is. -/
theorem getKeyPair_lifecycle (ks : Keys) (keyId : String) (now : Int)
    (hn : (ks.map Prod.fst).Nodup) :
    (∀ r, (getKeyPair ks keyId now).1 = some r →
        mapGet ks keyId = some r ∧ now ≤ r.expiresAt)
      ∧ (∀ r, mapGet ks keyId = some r → r.expiresAt < now →
          (getKeyPair ks keyId now).1 = none
            ∧ mapGet (getKeyPair ks keyId now).2 keyId = none
            ∧ keyId ∉ getActiveKeyIds ks now)
      ∧ (∀ (v : StoredKeyPair) (t : Int), t < v.expiresAt →
          (getKeyPair (mapSet ks keyId v) keyId t).1 = some v) := by
  refine ⟨?_, ?_, ?_⟩
  · intro r hr
    unfold getKeyPair at hr
    cases hg : mapGet ks keyId with
    | none => rw [hg] at hr; cases hr
    | some s =>
      rw [hg] at hr
      by_cases he : s.expiresAt < now
      · simp [he] at hr
      · simp [he] at hr
        subst hr
        exact ⟨rfl, le_of_not_lt he⟩
  · intro r hg he
    have hgk : getKeyPair ks keyId now = (none, mapErase ks keyId) := by
      unfold getKeyPair
      rw [hg]
      simp [he]
    refine ⟨by rw [hgk], by rw [hgk]; exact mapGet_mapErase_self ks keyId, ?_⟩
    intro hmem
    obtain ⟨p, hp, hpid⟩ := List.mem_map.mp hmem
    have hpk : p ∈ ks ∧ (now < p.2.expiresAt) := by
      have := List.mem_filter.mp hp
      exact ⟨this.1, by simpa using this.2⟩
    have : mapGet ks keyId = some p.2 := by
      apply mapGet_eq_of_mem_nodup hn
      have : p = (keyId, p.2) := by
        cases p; simp at hpid ⊢; exact hpid
      exact this ▸ hpk.1
    rw [hg] at this
    cases this
    omega
  · intro v t ht
    unfold getKeyPair
    rw [mapGet_mapSet_self]
    simp [not_lt_of_gt ht]

/-- C3 witness: a record expiring at 5 looked up at 10 is evicted and
unlisted; a fresh record stored then looked up at 3 (before expiry 9) is
returned identically. -/
theorem getKeyPair_lifecycle_witness :
    ((getKeyPair [("k", sampleAesRecord)] "k" 10).1 = none
        ∧ mapGet (getKeyPair [("k", sampleAesRecord)] "k" 10).2 "k" = none
        ∧ "k" ∉ getActiveKeyIds [("k", sampleAesRecord)] 10)
      ∧ (getKeyPair (mapSet [("k", sampleAesRecord)] "k" sampleAesRecord2) "k" 3).1
        = some sampleAesRecord2 :=
  ⟨(getKeyPair_lifecycle [("k", sampleAesRecord)] "k" 10 (by simp)).2.1
      sampleAesRecord (by decide) (by decide),
   (getKeyPair_lifecycle [("k", sampleAesRecord)] "k" 3 (by simp)).2.2
      sampleAesRecord2 3 (by decide)⟩

theorem mapGet_revokeIfPresent_none (ks : Keys) (o : Option String) (q : String)
    (h : mapGet ks q = none) : mapGet (revokeIfPresent ks o) q = none := by
  cases o with
  | none => exact h
  | some kid => exact mapGet_mapErase_none ks kid q h

theorem mapGet_revokeIfPresent_self (ks : Keys) (kid : String) :
    mapGet (revokeIfPresent ks (some kid)) kid = none :=
  mapGet_mapErase_self ks kid

/-- C7: `terminateSession` returns `false` exactly when the session did
not exist; when it returns `true`, the session record is removed and
every key id the session references is unreachable — `getKeyPair`
returns absent for each of them at any time. -/
theorem terminateSession_spec (st : SysState) (sessionId : String) :
    ((terminateSession st sessionId).1 = false ↔ mapGet st.sessions sessionId = none)
      ∧ (∀ s, mapGet st.sessions sessionId = some s →
          (terminateSession st sessionId).1 = true
            ∧ mapGet (terminateSession st sessionId).2.sessions sessionId = none
            ∧ ∀ kid, (s.rsaEncryptionKeyId = some kid ∨ s.rsaSignatureKeyId = some kid
                ∨ s.aesSessionKeyId = some kid ∨ s.ecdhKeyId = some kid) →
                ∀ t, (getKeyPair (terminateSession st sessionId).2.keys kid t).1 = none) := by
  cases hg : mapGet st.sessions sessionId with
  | none =>
    constructor
    · simp [terminateSession, hg]
    · intro s hs
      cases hs
  | some s =>
    have hterm : terminateSession st sessionId
        = (true,
           { keys := revokeIfPresent (revokeIfPresent (revokeIfPresent
               (revokeIfPresent st.keys s.rsaEncryptionKeyId) s.rsaSignatureKeyId)
               s.aesSessionKeyId) s.ecdhKeyId,
             sessions := mapErase st.sessions sessionId }) := by
      unfold terminateSession
      rw [hg]
      simp
    constructor
    · rw [hterm]
      simp [hg]
    · intro s' hs'
      injection hs' with hss
      subst hss
      refine ⟨by rw [hterm], by rw [hterm]; exact mapGet_mapErase_self _ _, ?_⟩
      intro kid hkid t
      rw [hterm]
      have hnone : mapGet (revokeIfPresent (revokeIfPresent (revokeIfPresent
          (revokeIfPresent st.keys s.rsaEncryptionKeyId) s.rsaSignatureKeyId)
          s.aesSessionKeyId) s.ecdhKeyId) kid = none := by
        rcases hkid with h | h | h | h
        · refine mapGet_revokeIfPresent_none _ _ _ ?_
          refine mapGet_revokeIfPresent_none _ _ _ ?_
          refine mapGet_revokeIfPresent_none _ _ _ ?_
          rw [h]
          exact mapGet_revokeIfPresent_self _ _
        · refine mapGet_revokeIfPresent_none _ _ _ ?_
          refine mapGet_revokeIfPresent_none _ _ _ ?_
          rw [h]
          exact mapGet_revokeIfPresent_self _ _
        · refine mapGet_revokeIfPresent_none _ _ _ ?_
          rw [h]
          exact mapGet_revokeIfPresent_self _ _
        · rw [h]
          exact mapGet_revokeIfPresent_self _ _
      unfold getKeyPair
      rw [hnone]

/-- C7 witness: terminating the concrete one-session state succeeds,
removes the session, and leaves its RSA encryption key id
unreachable. -/
theorem terminateSession_spec_witness :
    (terminateSession sampleSessionState "s").1 = true
      ∧ mapGet (terminateSession sampleSessionState "s").2.sessions "s" = none
      ∧ (getKeyPair (terminateSession sampleSessionState "s").2.keys "s-enc" 0).1 = none :=
  ⟨((terminateSession_spec sampleSessionState "s").2 sampleSession rfl).1,
   ((terminateSession_spec sampleSessionState "s").2 sampleSession rfl).2.1,
   ((terminateSession_spec sampleSessionState "s").2 sampleSession rfl).2.2 "s-enc"
     (Or.inl rfl) 0⟩

theorem append_suffix_ne (s : String) {a b : String} (hab : a ≠ b) : s ++ a ≠ s ++ b :=
  fun e => hab (string_append_left_cancel e)

/-- C4 counterexample: with the first sub-key generation succeeding and
the second failing, `createSession` fails as a whole but the first
sub-key is left stored — no rollback happens. -/
theorem createSession_rollback_counterexample :
    (createSession emptySysState "s" 0 (some (1, 2)) none none none).1 = Except.error ()
      ∧ mapGet (createSession emptySysState "s" 0 (some (1, 2)) none none
          none).2.keys ("s" ++ "-rsa-enc") ≠ none := by
  constructor
  · rfl
  · decide

/-- C4 amended: if any of the four sub-key generations fails, session
creation as a whole fails and no session record is stored, but every
sub-key created before the failure remains in the key store (no
rollback). -/
theorem createSession_partial_failure (st : SysState) (sessionId : String) (now : Int)
    (genEnc genSig : Option (Nat × Nat)) (genAes : Option Nat) (genEcdh : Option (Nat × Nat))
    (hfail : genEnc = none ∨ genSig = none ∨ genAes = none ∨ genEcdh = none) :
    (createSession st sessionId now genEnc genSig genAes genEcdh).1 = Except.error ()
      ∧ (createSession st sessionId now genEnc genSig genAes genEcdh).2.sessions = st.sessions
      ∧ (∀ e, genEnc = some e →
          mapGet (createSession st sessionId now genEnc genSig genAes genEcdh).2.keys
            (sessionId ++ "-rsa-enc") ≠ none)
      ∧ (∀ e s', genEnc = some e → genSig = some s' →
          mapGet (createSession st sessionId now genEnc genSig genAes genEcdh).2.keys
            (sessionId ++ "-rsa-sig") ≠ none)
      ∧ (∀ e s' a, genEnc = some e → genSig = some s' → genAes = some a →
          mapGet (createSession st sessionId now genEnc genSig genAes genEcdh).2.keys
            (sessionId ++ "-aes") ≠ none) := by
  have hes : (sessionId ++ "-rsa-enc") ≠ (sessionId ++ "-rsa-sig") :=
    append_suffix_ne sessionId (by decide)
  have hea : (sessionId ++ "-rsa-enc") ≠ (sessionId ++ "-aes") :=
    append_suffix_ne sessionId (by decide)
  have hsa : (sessionId ++ "-rsa-sig") ≠ (sessionId ++ "-aes") :=
    append_suffix_ne sessionId (by decide)
  match genEnc, genSig, genAes, genEcdh with
  | none, _, _, _ =>
    refine ⟨rfl, rfl, ?_, ?_, ?_⟩
    · intro e he; cases he
    · intro e s' he hs'; cases he
    · intro e s' a he hs' ha; cases he
  | some (encPub, encPriv), none, _, _ =>
    refine ⟨rfl, rfl, ?_, ?_, ?_⟩
    · intro e he
      simp [createSession, generateAndStoreRSAEncryptionKeys, mapGet_mapSet_self]
    · intro e s' he hs'; cases hs'
    · intro e s' a he hs' ha; cases hs'
  | some (encPub, encPriv), some (sigPub, sigPriv), none, _ =>
    refine ⟨rfl, rfl, ?_, ?_, ?_⟩
    · intro e he
      simp only [createSession, generateAndStoreRSAEncryptionKeys,
        generateAndStoreRSASignatureKeys]
      rw [mapGet_mapSet_ne _ _ _ _ hes, mapGet_mapSet_self]
      simp
    · intro e s' he hs'
      simp [createSession, generateAndStoreRSAEncryptionKeys,
        generateAndStoreRSASignatureKeys, mapGet_mapSet_self]
    · intro e s' a he hs' ha; cases ha
  | some (encPub, encPriv), some (sigPub, sigPriv), some aesKey, none =>
    refine ⟨rfl, rfl, ?_, ?_, ?_⟩
    · intro e he
      simp only [createSession, generateAndStoreRSAEncryptionKeys,
        generateAndStoreRSASignatureKeys, generateAndStoreAESSessionKey]
      rw [mapGet_mapSet_ne _ _ _ _ hea, mapGet_mapSet_ne _ _ _ _ hes, mapGet_mapSet_self]
      simp
    · intro e s' he hs'
      simp only [createSession, generateAndStoreRSAEncryptionKeys,
        generateAndStoreRSASignatureKeys, generateAndStoreAESSessionKey]
      rw [mapGet_mapSet_ne _ _ _ _ hsa, mapGet_mapSet_self]
      simp
    · intro e s' a he hs' ha
      simp [createSession, generateAndStoreRSAEncryptionKeys,
        generateAndStoreRSASignatureKeys, generateAndStoreAESSessionKey, mapGet_mapSet_self]
  | some _, some _, some _, some _ =>
    rcases hfail with h | h | h | h <;> cases h

/-- C4 witness: first two generations succeed, the third fails — the
session map is untouched and both generated sub-keys remain stored. -/
theorem createSession_partial_failure_witness :
    (createSession emptySysState "s" 0 (some (1, 2)) (some (3, 4)) none none).1
        = Except.error ()
      ∧ (createSession emptySysState "s" 0 (some (1, 2)) (some (3, 4)) none
          none).2.sessions = emptySysState.sessions
      ∧ mapGet (createSession emptySysState "s" 0 (some (1, 2)) (some (3, 4)) none
          none).2.keys ("s" ++ "-rsa-enc") ≠ none
      ∧ mapGet (createSession emptySysState "s" 0 (some (1, 2)) (some (3, 4)) none
          none).2.keys ("s" ++ "-rsa-sig") ≠ none :=
  ⟨(createSession_partial_failure emptySysState "s" 0 (some (1, 2)) (some (3, 4)) none none
      (Or.inr (Or.inr (Or.inl rfl)))).1,
   (createSession_partial_failure emptySysState "s" 0 (some (1, 2)) (some (3, 4)) none none
      (Or.inr (Or.inr (Or.inl rfl)))).2.1,
   (createSession_partial_failure emptySysState "s" 0 (some (1, 2)) (some (3, 4)) none none
      (Or.inr (Or.inr (Or.inl rfl)))).2.2.1 (1, 2) rfl,
   (createSession_partial_failure emptySysState "s" 0 (some (1, 2)) (some (3, 4)) none none
      (Or.inr (Or.inr (Or.inl rfl)))).2.2.2.1 (1, 2) (3, 4) rfl rfl⟩

theorem runLogMessages_concat (inserts : List LogInsert) (i : LogInsert) :
    runLogMessages (inserts ++ [i])
      = logMessage (runLogMessages inserts) i.messageId i.sender i.receiver i.now
          i.encryptedDataHash i.attacksDetected := by
  simp [runLogMessages, List.foldl_append]

/-- After any call sequence, the log is the mapped insert list with all
but the newest `MAX_LOG_SIZE` entries shifted off the front. -/
theorem runLogMessages_eq_drop (inserts : List LogInsert) :
    runLogMessages inserts
      = (inserts.map mkLogEntry).drop (inserts.length - MAX_LOG_SIZE) := by
  induction inserts using List.reverseRecOn with
  | nil => rfl
  | append_singleton xs x ih =>
    rw [runLogMessages_concat, ih]
    have hmk : logMessage ((xs.map mkLogEntry).drop (xs.length - MAX_LOG_SIZE))
        x.messageId x.sender x.receiver x.now x.encryptedDataHash x.attacksDetected
        = (let log' := (xs.map mkLogEntry).drop (xs.length - MAX_LOG_SIZE) ++ [mkLogEntry x];
           if MAX_LOG_SIZE < log'.length then log'.tail else log') := rfl
    rw [hmk]
    by_cases hn : xs.length < MAX_LOG_SIZE
    · have h1 : xs.length - MAX_LOG_SIZE = 0 := by omega
      have h2 : (xs ++ [x]).length - MAX_LOG_SIZE = 0 := by
        simp only [List.length_append, List.length_cons, List.length_nil]
        omega
      have h3 : ¬ (MAX_LOG_SIZE
          < ((xs.map mkLogEntry).drop (xs.length - MAX_LOG_SIZE) ++ [mkLogEntry x]).length) := by
        simp only [List.length_append, List.length_drop, List.length_map,
          List.length_cons, List.length_nil]
        omega
      simp only [h3, if_false]
      rw [List.map_append, h1, h2]
      simp
    · have hlen : ((xs.map mkLogEntry).drop (xs.length - MAX_LOG_SIZE)).length
          = MAX_LOG_SIZE := by
        simp only [List.length_drop, List.length_map]
        omega
      have h3 : MAX_LOG_SIZE
          < ((xs.map mkLogEntry).drop (xs.length - MAX_LOG_SIZE) ++ [mkLogEntry x]).length := by
        simp only [List.length_append, hlen, List.length_cons, List.length_nil]
        omega
      simp only [h3, if_true]
      obtain ⟨a, A, hA⟩ : ∃ a A, (xs.map mkLogEntry).drop (xs.length - MAX_LOG_SIZE)
          = a :: A := by
        cases hC : (xs.map mkLogEntry).drop (xs.length - MAX_LOG_SIZE) with
        | nil => rw [hC] at hlen; cases hlen
        | cons a A => exact ⟨a, A, rfl⟩
      rw [hA]
      have hAtail : A = (xs.map mkLogEntry).drop (xs.length - MAX_LOG_SIZE + 1) := by
        have := List.tail_drop (xs.map mkLogEntry) (xs.length - MAX_LOG_SIZE)
        rw [hA] at this
        simpa using this
      have hidx : (xs ++ [x]).length - MAX_LOG_SIZE = (xs.length - MAX_LOG_SIZE) + 1 := by
        simp only [List.length_append, List.length_cons, List.length_nil]
        omega
      have hle : xs.length - MAX_LOG_SIZE + 1 ≤ (xs.map mkLogEntry).length := by
        have hn' : ¬ xs.length < 1000 := hn
        simp only [List.length_map, MAX_LOG_SIZE]
        omega
      rw [List.map_append, hidx, List.drop_append_of_le_length hle]
      simp [hAtail]

/-- C9: after any sequence of `logMessage` calls starting from the empty
log, the audit log never exceeds `MAX_LOG_SIZE = 1000` entries; when a
1001st entry is appended the oldest entry is shifted off (FIFO), so
after 1001 inserts the log equals the entries of the last 1000 inserts,
the first inserted entry is absent (when distinct from the others) and
the 1001st is present. -/
theorem auditLog_capacity (i₀ : LogInsert) (rest : List LogInsert)
    (hlen : rest.length = MAX_LOG_SIZE)
    (hdist : mkLogEntry i₀ ∉ rest.map mkLogEntry) :
    (∀ inserts : List LogInsert, (runLogMessages inserts).length ≤ MAX_LOG_SIZE)
      ∧ runLogMessages (i₀ :: rest) = rest.map mkLogEntry
      ∧ mkLogEntry i₀ ∉ runLogMessages (i₀ :: rest)
      ∧ ∀ pre ilast, i₀ :: rest = pre ++ [ilast] →
          mkLogEntry ilast ∈ runLogMessages (i₀ :: rest) := by
  have hbound : ∀ inserts : List LogInsert,
      (runLogMessages inserts).length ≤ MAX_LOG_SIZE := by
    intro inserts
    rw [runLogMessages_eq_drop]
    simp only [List.length_drop, List.length_map]
    omega
  have heq : runLogMessages (i₀ :: rest) = rest.map mkLogEntry := by
    rw [runLogMessages_eq_drop]
    have h1 : (i₀ :: rest).length - MAX_LOG_SIZE = 1 := by
      simp only [List.length_cons, hlen]
      omega
    rw [h1, List.map_cons, List.drop_one, List.tail_cons]
  refine ⟨hbound, heq, by rw [heq]; exact hdist, ?_⟩
  intro pre ilast hsplit
  rw [heq]
  cases pre with
  | nil =>
    injection hsplit with h1 h2
    rw [h2] at hlen
    simp [MAX_LOG_SIZE] at hlen
  | cons p pre' =>
    injection hsplit with h1 h2
    rw [h2]
    simp

/-- C9 witness: 1001 concrete inserts (one "a" then 1000 copies of "b");
the log is exactly the 1000 "b" entries and the "a" entry is gone. -/
theorem auditLog_capacity_witness :
    runLogMessages (logInsertA :: List.replicate 1000 logInsertB)
        = (List.replicate 1000 logInsertB).map mkLogEntry
      ∧ mkLogEntry logInsertA ∉ runLogMessages (logInsertA :: List.replicate 1000 logInsertB) :=
  have hdist : mkLogEntry logInsertA ∉ (List.replicate 1000 logInsertB).map mkLogEntry := by
    rw [List.map_replicate]
    intro h
    exact absurd (List.eq_of_mem_replicate h) (by decide)
  ⟨(auditLog_capacity logInsertA (List.replicate 1000 logInsertB)
      (by rw [List.length_replicate]; rfl) hdist).2.1,
   (auditLog_capacity logInsertA (List.replicate 1000 logInsertB)
      (by rw [List.length_replicate]; rfl) hdist).2.2.1⟩

/-- C6 counterexample: present a previously consumed nonce "n" to both
handlers with the replay toggle on — each detects the replay, and
neither invokes `markNonceUsed` for that presentation: the ledger comes
back unchanged, although a `markNonceUsed` call would have changed
it. -/
theorem markUsed_skipped_on_replay_counterexample :
    (verifyRoutePOST (markNonceUsed [] "n" 0) 1 "n" true true true none none).2
        = markNonceUsed [] "n" 0
      ∧ markNonceUsed (markNonceUsed [] "n" 0) "n" 1 ≠ markNonceUsed [] "n" 0
      ∧ (relayRoutePOST (markNonceUsed [] "n" 0) [] 1 samplePayload
          replayOnlyOptions id id).2.1 = markNonceUsed [] "n" 0 := by
  refine ⟨by decide, by decide, by decide⟩

/-- C6 amended: the handlers invoke `markNonceUsed` after the
`isReplay` check only when no replay was detected for that
presentation; on a detected replay the verify route skips the call and
the relay route returns early, leaving the ledger unchanged. -/
theorem handlers_mark_only_when_fresh (l : Ledger) (log : List MessageLog) (now : Int)
    (nonce : String) (integrity authentication : Bool) (sv fv : Option Bool)
    (payload : EncryptedPayload) (opts : AttackOptions) (tamperFn hexDigest : String → String)
    (hnonce : payload.nonce = nonce) (hopt : opts.replay = true) :
    (verifyRoutePOST l now nonce integrity authentication true sv fv).2
        = (if isReplay l nonce then l else markNonceUsed l nonce now)
      ∧ (relayRoutePOST l log now payload opts tamperFn hexDigest).2.1
        = (if isReplay l nonce then l else markNonceUsed l nonce now) := by
  subst hnonce
  constructor
  · unfold verifyRoutePOST
    cases h : isReplay l payload.nonce <;> simp [h]
  · unfold relayRoutePOST
    cases h : isReplay l payload.nonce <;> simp [hopt, h]

/-- C6 amended witness: a consumed nonce presented again leaves the
ledger of both handlers unchanged. -/
theorem handlers_mark_only_when_fresh_witness :
    (verifyRoutePOST (markNonceUsed [] "n" 0) 1 "n" true true true none none).2
        = (if isReplay (markNonceUsed [] "n" 0) "n" then markNonceUsed [] "n" 0
           else markNonceUsed (markNonceUsed [] "n" 0) "n" 1)
      ∧ (relayRoutePOST (markNonceUsed [] "n" 0) [] 1 samplePayload
          replayOnlyOptions id id).2.1
        = (if isReplay (markNonceUsed [] "n" 0) "n" then markNonceUsed [] "n" 0
           else markNonceUsed (markNonceUsed [] "n" 0) "n" 1) :=
  handlers_mark_only_when_fresh (markNonceUsed [] "n" 0) [] 1 "n" true true none none
    samplePayload replayOnlyOptions id id (by decide) (by decide)

end SecureComm
